import Mathlib

/-!
Shallow embedding of `src/parser.py` (Optix_Tools_RuntimeLogsParser).

The Python module defines:
  * `LOG_LEVELS`, a fixed list of severity tokens;
  * `RuntimeLogLine.parse_log_line`, which splits a raw log line on at most
    five `;` separators, normalizes certain error messages, parses the
    timestamp with `datetime.strptime(ts, "%d-%m-%Y %H:%M:%S.%f")`, resolves
    the level with `LOG_LEVELS.index(level_str.upper())`, and returns the
    sentinel `(datetime.min, -1, "Invalid log line format")` on any
    `ValueError`;
  * `read_log_files`, which walks the `.log` files of a folder, groups
    physical lines into logical entries using the character test
    `line.strip() and line[2] == '-' and line[5] == '-'`, merges each group
    with `' '.join(group).strip()` and parses it;
  * a `__main__` block that sorts, filters (`0 <= level <= 1`) and prints
    entries as `f'{ts.strftime("%d-%m-%Y %H:%M:%S")}; {LOG_LEVELS[lvl].ljust(10)}; {msg}'`.

Machine integers do not occur; Python `datetime` components are modelled as
`Nat` fields validated exactly as `datetime.__new__` validates them, and the
lenient regular-expression matching performed by `_strptime` is modelled
token by token. CPython compiles the format to
`(?P<d>3[0-1]|[1-2]\d|0[1-9]|[1-9]| [1-9])-(?P<m>1[0-2]|0[1-9]|[1-9])-(?P<Y>\d\d\d\d)\s+(?P<H>2[0-3]|[0-1]\d|\d):(?P<M>[0-5]\d|\d):(?P<S>6[0-1]|[0-5]\d|\d)\.(?P<f>[0-9]{1,6})`
— note the whitespace of the format becomes `\s+` (a run of whitespace) and
`%d` alone has a space-then-digit alternative. For this pattern the greedy
token-by-token reading below agrees with the backtracking regex semantics:
every numeric token and every whitespace run is followed by a non-digit,
non-whitespace literal (or end of input), and the fallback alternatives of a
token always leave a character at the front of the remainder that the
following literal cannot be (a digit after backtracking a two-digit numeral
to one digit; nothing can follow a failed space-digit day, which has no
later alternative).

The model reads characters at ASCII scope: `\d` and `\s` of a Python `str`
regex also cover non-ASCII decimal digits and spaces, `str.upper()` maps a
few non-ASCII letters onto ASCII, and `str.strip()` removes further Unicode
whitespace; the log format under test is ASCII, and on ASCII strings the
model and CPython coincide character for character.

Python exceptions that escape (the `IndexError` of `read_log_files`) are
modelled with `Except String`; the `ValueError`s swallowed by
`parse_log_line` are modelled with `Option` inside a total function.
-/

/-- Decimal value of a digit character (`ord(c) - ord('0')`). -/
def dv (c : Char) : Nat := c.toNat - 48

/-- The whitespace characters of `str.strip()` and of the regex class `\s`,
at ASCII scope. -/
def isPySpace (c : Char) : Bool :=
  c = ' ' || c = '\t' || c = '\n' || c = '\r' || c = '\x0b' || c = '\x0c'

/-- One numeric token of the `_strptime` regex: a two-digit reading is taken
when its value lies in `[lo2, hi2]` (this is exactly the two-digit
alternatives of the CPython patterns for `%m`, `%H`, `%M`, `%S`),
otherwise a single digit with value at least `lo1` is accepted. -/
def parseNum2or1 (lo2 hi2 lo1 : Nat) : List Char → Option (Nat × List Char)
  | c1 :: c2 :: rest =>
    if c1.isDigit && c2.isDigit && decide (lo2 ≤ 10 * dv c1 + dv c2)
        && decide (10 * dv c1 + dv c2 ≤ hi2) then
      some (10 * dv c1 + dv c2, rest)
    else if c1.isDigit && decide (lo1 ≤ dv c1) then
      some (dv c1, c2 :: rest)
    else
      none
  | [c1] =>
    if c1.isDigit && decide (lo1 ≤ dv c1) then some (dv c1, []) else none
  | [] => none

/-- `%d`, whose CPython pattern is `3[0-1]|[1-2]\d|0[1-9]|[1-9]| [1-9]`:
two digits valued 1–31, one digit 1–9, or — unlike every other numeric
directive — a single space followed by a digit 1–9. -/
def parseDay : List Char → Option (Nat × List Char)
  | c1 :: c2 :: rest =>
    if c1.isDigit && c2.isDigit && decide (1 ≤ 10 * dv c1 + dv c2)
        && decide (10 * dv c1 + dv c2 ≤ 31) then
      some (10 * dv c1 + dv c2, rest)
    else if c1.isDigit && decide (1 ≤ dv c1) then
      some (dv c1, c2 :: rest)
    else if c1 = ' ' && c2.isDigit && decide (1 ≤ dv c2) then
      some (dv c2, rest)
    else
      none
  | [c1] =>
    if c1.isDigit && decide (1 ≤ dv c1) then some (dv c1, []) else none
  | [] => none

/-- A literal character of the format string. -/
def parseLit (ch : Char) : List Char → Option (List Char)
  | c :: rest => if c = ch then some rest else none
  | [] => none

/-- `\s+`: the whitespace of the format string matches a non-empty run of
whitespace characters (taken greedily; the following directive starts with a
digit, so greediness agrees with the regex). -/
def parseWs (l : List Char) : Option (List Char) :=
  if (l.takeWhile isPySpace).isEmpty then none
  else some (l.drop (l.takeWhile isPySpace).length)

/-- `%Y`: exactly four digits. -/
def parseYear4 : List Char → Option (Nat × List Char)
  | a :: b :: c :: d :: rest =>
    if a.isDigit && b.isDigit && c.isDigit && d.isDigit then
      some (1000 * dv a + 100 * dv b + 10 * dv c + dv d, rest)
    else none
  | _ => none

/-- Value of a digit string read left to right. -/
def digitsVal (l : List Char) : Nat := l.foldl (fun a c => 10 * a + dv c) 0

/-- `%f`: one to six digits (`[0-9]{1,6}` is ASCII-only even in CPython),
taken greedily, the value right-padded with zeros to a microsecond count
(CPython pads the fraction with `"0" * (6 - len)`). -/
def parseFrac (l : List Char) : Option (Nat × List Char) :=
  if ((l.takeWhile Char.isDigit).take 6).isEmpty then none
  else some (digitsVal ((l.takeWhile Char.isDigit).take 6)
      * 10 ^ (6 - ((l.takeWhile Char.isDigit).take 6).length),
    l.drop ((l.takeWhile Char.isDigit).take 6).length)

/-- Regex phase of `datetime.strptime(s, "%d-%m-%Y %H:%M:%S.%f")`: the
format-derived pattern (see the module comment) must match the whole string
(`_strptime` raises when unconverted data remains). Returns
`(year, month, day, hour, minute, second, microsecond)`. -/
def strptimeMatch (l : List Char) : Option (Nat × Nat × Nat × Nat × Nat × Nat × Nat) :=
  match parseDay l with
  | some (d, l) =>
    match parseLit '-' l with
    | some l =>
      match parseNum2or1 1 12 1 l with
      | some (m, l) =>
        match parseLit '-' l with
        | some l =>
          match parseYear4 l with
          | some (y, l) =>
            match parseWs l with
            | some l =>
              match parseNum2or1 0 23 0 l with
              | some (h, l) =>
                match parseLit ':' l with
                | some l =>
                  match parseNum2or1 0 59 0 l with
                  | some (mi, l) =>
                    match parseLit ':' l with
                    | some l =>
                      match parseNum2or1 0 61 0 l with
                      | some (s, l) =>
                        match parseLit '.' l with
                        | some l =>
                          match parseFrac l with
                          | some (f, l) =>
                            if l.isEmpty then some (y, m, d, h, mi, s, f) else none
                          | none => none
                        | none => none
                      | none => none
                    | none => none
                  | none => none
                | none => none
              | none => none
            | none => none
          | none => none
        | none => none
      | none => none
    | none => none
  | none => none

/-- Gregorian leap-year rule, as in `datetime`. -/
def isLeapYear (y : Nat) : Bool := y % 4 = 0 && (y % 100 ≠ 0 || y % 400 = 0)

/-- `calendar`-style days-in-month used by `datetime`'s day validation. -/
def daysInMonth (y m : Nat) : Nat :=
  if m = 2 then (if isLeapYear y then 29 else 28)
  else if m = 4 ∨ m = 6 ∨ m = 9 ∨ m = 11 then 30
  else 31

/-- A `datetime` value as far as this program observes it. -/
structure Timestamp where
  year : Nat
  month : Nat
  day : Nat
  hour : Nat
  minute : Nat
  second : Nat
  microsecond : Nat
deriving DecidableEq, Repr

/-- `datetime.min` = 0001-01-01 00:00:00.000000. -/
def datetimeMin : Timestamp := ⟨1, 1, 1, 0, 0, 0, 0⟩

/-- `datetime.strptime(s, "%d-%m-%Y %H:%M:%S.%f")` as an `Option`: the regex
match followed by the range validation of `datetime.__new__` (year in
1..9999, month 1..12, day 1..days-in-month, hour ≤ 23, minute ≤ 59,
second ≤ 59, microsecond ≤ 999999); any failure is a `ValueError`, i.e.
`none`. -/
def strptimeTs (s : String) : Option Timestamp :=
  match strptimeMatch s.data with
  | none => none
  | some (y, m, d, h, mi, sec, f) =>
    if 1 ≤ y ∧ y ≤ 9999 ∧ 1 ≤ m ∧ m ≤ 12 ∧ 1 ≤ d ∧ d ≤ daysInMonth y m
        ∧ h ≤ 23 ∧ mi ≤ 59 ∧ sec ≤ 59 ∧ f ≤ 999999 then
      some ⟨y, m, d, h, mi, sec, f⟩
    else none

/-- What a `%d` match can consume: the regex alternatives
`3[0-1]|[1-2]\d|0[1-9]|[1-9]| [1-9]` — two digits valued 1–31, one digit
1–9, or a space then a digit 1–9 — paired with the value read. -/
def dayTokenShape (l : List Char) (v : Nat) : Prop :=
  (∃ c1 c2, l = [c1, c2] ∧ c1.isDigit = true ∧ c2.isDigit = true
      ∧ v = 10 * dv c1 + dv c2 ∧ 1 ≤ v ∧ v ≤ 31)
    ∨ (∃ c, l = [c] ∧ c.isDigit = true ∧ 1 ≤ dv c ∧ v = dv c)
    ∨ (∃ c, l = [' ', c] ∧ c.isDigit = true ∧ 1 ≤ dv c ∧ v = dv c)

/-- What a `%m`, `%H`, `%M` or `%S` match can consume: two digits valued in
`[lo2, hi2]` or one digit valued at least `lo1`, paired with the value. -/
def numTokenShape (lo2 hi2 lo1 : Nat) (l : List Char) (v : Nat) : Prop :=
  (∃ c1 c2, l = [c1, c2] ∧ c1.isDigit = true ∧ c2.isDigit = true
      ∧ v = 10 * dv c1 + dv c2 ∧ lo2 ≤ v ∧ v ≤ hi2)
    ∨ (∃ c, l = [c] ∧ c.isDigit = true ∧ lo1 ≤ dv c ∧ v = dv c)

/-- What a `%Y` match consumes: exactly four digits. -/
def yearTokenShape (l : List Char) (v : Nat) : Prop :=
  ∃ a b c d, l = [a, b, c, d] ∧ a.isDigit = true ∧ b.isDigit = true
    ∧ c.isDigit = true ∧ d.isDigit = true
    ∧ v = 1000 * dv a + 100 * dv b + 10 * dv c + dv d

/-- What `\s+` consumes: a non-empty run of whitespace. -/
def wsTokenShape (l : List Char) : Prop :=
  l ≠ [] ∧ ∀ c ∈ l, isPySpace c = true

/-- What `%f` consumes: one to six digits, the value right-padded with
zeros to microseconds. -/
def fracTokenShape (l : List Char) (v : Nat) : Prop :=
  1 ≤ l.length ∧ l.length ≤ 6 ∧ (∀ c ∈ l, c.isDigit = true)
    ∧ v = digitsVal l * 10 ^ (6 - l.length)

/-- `LOG_LEVELS = ['ERROR', 'WARNING', 'INFO', 'DEBUG', 'VERBOSE1', 'VERBOSE2']`. -/
def LOG_LEVELS : List String := ["ERROR", "WARNING", "INFO", "DEBUG", "VERBOSE1", "VERBOSE2"]

/-- Python `str.upper()` restricted to the ASCII letters that can occur in
level tokens (Lean's `Char.toUpper` uppercases exactly `a`–`z`). -/
def pyUpper (s : String) : String := String.mk (s.data.map Char.toUpper)

/-- Python `list.index(x)` returning the first matching index, `none` in
place of the `ValueError`. -/
def listIndexOf (target : String) : List String → Option Nat
  | [] => none
  | x :: xs => if x = target then some 0 else (listIndexOf target xs).map (· + 1)

/-- `LOG_LEVELS.index(level_str.upper())`, with `none` for the `ValueError`. -/
def levelIndex (level_str : String) : Option Nat :=
  listIndexOf (pyUpper level_str) LOG_LEVELS

/-- Python `s.split(';', maxsplit)` accumulator: once `maxsplit` reaches 0
the remaining characters, separators included, stay in the current chunk. -/
def pySplitAux (m : Nat) (acc : List Char) : List Char → List String
  | [] => [String.mk acc.reverse]
  | c :: cs =>
    if c = ';' then
      match m with
      | 0 => pySplitAux 0 (c :: acc) cs
      | m' + 1 => String.mk acc.reverse :: pySplitAux m' [] cs
    else
      pySplitAux m (c :: acc) cs

/-- `log_line.split(';', 5)`. -/
def splitSemi5 (s : String) : List String := pySplitAux 5 [] s.data

/-- `message.startswith('Error invoking ') or message.startswith('Error executing ') or message.startswith('Error running ')`. -/
def hasErrorShape (message : String) : Bool :=
  "Error invoking ".data.isPrefixOf message.data
    || "Error executing ".data.isPrefixOf message.data
    || "Error running ".data.isPrefixOf message.data

/-- Accumulator for Python `s.split(':')` (no maxsplit limit). -/
def colonSplitAux (acc : List Char) : List Char → List String
  | [] => [String.mk acc.reverse]
  | c :: cs =>
    if c = ':' then String.mk acc.reverse :: colonSplitAux [] cs
    else colonSplitAux (c :: acc) cs

/-- Python `s.split(':')`. -/
def splitColon (s : String) : List String := colonSplitAux [] s.data

/-- The message normalization of `parse_log_line`:
`if message.startswith(...): message = message.split(':')[0]`. -/
def normalizeMessage (message : String) : String :=
  if hasErrorShape message then (splitColon message).headD "" else message

/-- The structured log entry built by `RuntimeLogLine.__init__`. -/
structure RuntimeLogLine where
  timestamp : Timestamp
  level : Int
  message : String
deriving DecidableEq, Repr

/-- The sentinel returned on `ValueError`:
`(datetime.min, -1, "Invalid log line format")`. -/
def invalidEntry : RuntimeLogLine := ⟨datetimeMin, -1, "Invalid log line format"⟩

/-- `RuntimeLogLine.parse_log_line`: split on at most five `;`, unpack into
six fields (a `ValueError` — hence the sentinel — if there are fewer parts),
normalize the message, parse the timestamp, resolve the level; any
`ValueError` yields the sentinel. -/
def parse_log_line (log_line : String) : RuntimeLogLine :=
  match splitSemi5 log_line with
  | [timestamp_str, level_str, _module, _object, message, _unused] =>
    let message := normalizeMessage message
    match strptimeTs timestamp_str, levelIndex level_str with
    | some timestamp, some level => ⟨timestamp, (level : Int), message⟩
    | _, _ => invalidEntry
  | _ => invalidEntry

/-- Python `line.strip()`. -/
def pyStrip (s : String) : String :=
  String.mk (((s.data.dropWhile isPySpace).reverse.dropWhile isPySpace).reverse)

/-- The boundary test `line.strip() and line[2] == '-' and line[5] == '-'`
with Python semantics: short-circuit evaluation, and `line[i]` raising
`IndexError` when the line has at most `i` characters. -/
def boundaryCheck (line : String) : Except String Bool :=
  if (pyStrip line).data = [] then .ok false
  else
    match line.data[2]? with
    | none => .error "IndexError"
    | some c2 =>
      if c2 ≠ '-' then .ok false
      else
        match line.data[5]? with
        | none => .error "IndexError"
        | some c5 => .ok (c5 = '-')

/-- Python `' '.join(parts)`. -/
def joinSpace : List String → String
  | [] => ""
  | [s] => s
  | s :: rest => s ++ " " ++ joinSpace rest

/-- `RuntimeLogLine(' '.join(log_entry).strip())` where `log_entry` already
holds the stripped physical lines. -/
def mkLogEntry (log_entry : List String) : RuntimeLogLine :=
  parse_log_line (pyStrip (joinSpace log_entry))

/-- The per-file loop of `read_log_files`: `log_entry` accumulates stripped
lines; a boundary line flushes a non-empty accumulator before being
appended; the final accumulator is flushed after the loop. An `IndexError`
in the boundary test aborts the file (and the whole call). -/
def processGo : List String → List String → List RuntimeLogLine →
    Except String (List RuntimeLogLine)
  | [], log_entry, acc =>
    .ok (if log_entry.isEmpty then acc else acc ++ [mkLogEntry log_entry])
  | line :: rest, log_entry, acc =>
    match boundaryCheck line with
    | .error e => .error e
    | .ok isB =>
      if isB && !log_entry.isEmpty then
        processGo rest [pyStrip line] (acc ++ [mkLogEntry log_entry])
      else
        processGo rest (log_entry ++ [pyStrip line]) acc

/-- Processing of one opened file, given its physical lines exactly as
Python's file iteration yields them (newline terminators included). -/
def processFile (lines : List String) : Except String (List RuntimeLogLine) :=
  processGo lines [] []

/-- Python `filename.endswith('.log')`. -/
def endsWithLog (filename : String) : Bool := ".log".data.isSuffixOf filename.data

/-- `read_log_files`, over a directory modelled as the association list of
file names to their physical lines, in listing order. Non-`.log` files are
skipped; an `IndexError` raised while scanning a file propagates. -/
def readLogFiles : List (String × List String) → Except String (List RuntimeLogLine)
  | [] => .ok []
  | (filename, lines) :: rest =>
    if endsWithLog filename then
      match processFile lines with
      | .error e => .error e
      | .ok entries =>
        match readLogFiles rest with
        | .error e => .error e
        | .ok more => .ok (entries ++ more)
    else readLogFiles rest

/-- Two-digit zero padding, as the `strftime` directives `%d`, `%m`, `%H`,
`%M`, `%S` produce for their in-range values. -/
def pad2 (n : Nat) : String := if n < 10 then "0" ++ toString n else toString n

/-- `timestamp.strftime("%d-%m-%Y %H:%M:%S")` (glibc prints `%Y` without
zero padding, which for the four-digit years this parser builds is the plain
decimal numeral). -/
def strftimeDHMS (t : Timestamp) : String :=
  pad2 t.day ++ "-" ++ pad2 t.month ++ "-" ++ toString t.year ++ " "
    ++ pad2 t.hour ++ ":" ++ pad2 t.minute ++ ":" ++ pad2 t.second

/-- Python `s.ljust(w)`. -/
def ljust (s : String) (w : Nat) : String :=
  s ++ String.mk (List.replicate (w - s.data.length) ' ')

/-- `LOG_LEVELS[i]` for the indexes the printing filter lets through. -/
def levelName (i : Int) : String := LOG_LEVELS.getD i.toNat ""

/-- One printed line of the `__main__` block:
`f'{content.timestamp.strftime("%d-%m-%Y %H:%M:%S")}; {LOG_LEVELS[content.level].ljust(10)}; {content.message}'`. -/
def renderLine (e : RuntimeLogLine) : String :=
  strftimeDHMS e.timestamp ++ "; " ++ ljust (levelName e.level) 10 ++ "; " ++ e.message

/-! ### Spec-side definitions (refinement counterparts, from the spec's words) -/

/-- Whether an `Except` computation succeeded. -/
def exceptOk {α : Type} : Except String α → Bool
  | .ok _ => true
  | .error _ => false

/-- The boundary heuristic as a plain Boolean, defined whenever the index
accesses of the code do not raise (an `IndexError` case is read as
non-boundary; under the no-error hypotheses used below the two agree). -/
def isBoundaryB (line : String) : Bool :=
  match boundaryCheck line with
  | .ok b => b
  | .error _ => false

/-- Modelled from the spec's merge/flush description (section 4.2): the
grouping of the physical lines of a file into logical entries — the first
line opens an entry, a boundary line seen after at least one accumulated
line flushes the group, and the remaining lines are flushed at end of
file. -/
def specGroupsAux (entry : List String) : List String → List (List String)
  | [] => if entry.isEmpty then [] else [entry]
  | l :: rest =>
    if isBoundaryB l && !entry.isEmpty then entry :: specGroupsAux [l] rest
    else specGroupsAux (entry ++ [l]) rest

/-- The logical-entry grouping of a whole file, per the spec. -/
def specGroups (lines : List String) : List (List String) := specGroupsAux [] lines

/-- Modelled from the spec's words in claim C6: "its physical lines each
stripped of leading and trailing whitespace and joined with a single space
character" — with no outer strip. -/
def specMergeClaim (g : List String) : String := joinSpace (g.map pyStrip)

/-- The amended merge: the claimed join, then stripped again as a whole
(the code builds `' '.join(entry).strip()`). -/
def specMerge (g : List String) : String := pyStrip (specMergeClaim g)

/-- Modelled from the spec's words in claim C3: timestamp, a semicolon, the
level token left-justified to 10 characters, a semicolon, and the message,
"with no other characters (in particular no space after the semicolons)". -/
def specRenderClaim (e : RuntimeLogLine) : String :=
  strftimeDHMS e.timestamp ++ ";" ++ ljust (levelName e.level) 10 ++ ";" ++ e.message

/-- The amended rendering contract: each semicolon is followed by one space
(the code's f-string separators are `'; '`). -/
def specRenderAmended (e : RuntimeLogLine) : String :=
  strftimeDHMS e.timestamp ++ "; " ++ ljust (levelName e.level) 10 ++ "; " ++ e.message

/-! ### Basic string lemmas -/

theorem strData_append (a b : String) : (a ++ b).data = a.data ++ b.data := by
  cases a; cases b; rfl

theorem strMk_data (s : String) : String.mk s.data = s := by
  cases s; rfl

theorem data_eq_nil_iff (s : String) : s.data = [] ↔ s = "" := by
  cases s with
  | mk d =>
    constructor
    · intro h
      have hd : d = [] := h
      subst hd
      rfl
    · intro h
      have hd : d = ([] : List Char) := congrArg String.data h
      subst hd
      rfl

/-! ### Lemmas about Python `split` -/

theorem pySplitAux_zero (xs : List Char) :
    ∀ acc, pySplitAux 0 acc xs = [String.mk (acc.reverse ++ xs)] := by
  induction xs with
  | nil => intro acc; simp [pySplitAux]
  | cons c cs ih =>
    intro acc
    by_cases hc : c = ';'
    · simp only [pySplitAux, if_pos hc, ih]
      simp
    · simp only [pySplitAux, if_neg hc, ih]
      simp

theorem pySplitAux_no_semi (xs : List Char) (hx : ∀ c ∈ xs, c ≠ ';') :
    ∀ m acc rest, pySplitAux (m + 1) acc (xs ++ ';' :: rest)
      = String.mk (acc.reverse ++ xs) :: pySplitAux m [] rest := by
  induction xs with
  | nil => intro m acc rest; simp [pySplitAux]
  | cons c cs ih =>
    intro m acc rest
    have hc : c ≠ ';' := hx c (by simp)
    have hcs : ∀ x ∈ cs, x ≠ ';' := fun x hxm => hx x (by simp [hxm])
    have hstep : pySplitAux (m + 1) acc ((c :: cs) ++ ';' :: rest)
        = pySplitAux (m + 1) (c :: acc) (cs ++ ';' :: rest) := by
      simp [pySplitAux, hc]
    rw [hstep, ih hcs]
    simp

theorem pySplitAux_no_semi_end (xs : List Char) (hx : ∀ c ∈ xs, c ≠ ';') :
    ∀ m acc, pySplitAux m acc xs = [String.mk (acc.reverse ++ xs)] := by
  induction xs with
  | nil => intro m acc; simp [pySplitAux]
  | cons c cs ih =>
    intro m acc
    have hc : c ≠ ';' := hx c (by simp)
    have hcs : ∀ x ∈ cs, x ≠ ';' := fun x hxm => hx x (by simp [hxm])
    have hstep : pySplitAux m acc (c :: cs) = pySplitAux m (c :: acc) cs := by
      simp [pySplitAux, hc]
    rw [hstep, ih hcs]
    simp

/-- `split(';', 5)` applied to a string with at least five semicolons cuts
exactly at the first five and leaves the remainder, further semicolons
included, in the sixth part. -/
theorem splitSemi5_parts (t l m o msg u : String)
    (ht : ∀ c ∈ t.data, c ≠ ';') (hl : ∀ c ∈ l.data, c ≠ ';')
    (hm : ∀ c ∈ m.data, c ≠ ';') (ho : ∀ c ∈ o.data, c ≠ ';')
    (hmsg : ∀ c ∈ msg.data, c ≠ ';') :
    splitSemi5 (t ++ ";" ++ l ++ ";" ++ m ++ ";" ++ o ++ ";" ++ msg ++ ";" ++ u)
      = [t, l, m, o, msg, u] := by
  have hdata :
      (t ++ ";" ++ l ++ ";" ++ m ++ ";" ++ o ++ ";" ++ msg ++ ";" ++ u).data
        = t.data ++ ';' :: (l.data ++ ';' :: (m.data ++ ';' :: (o.data ++ ';'
            :: (msg.data ++ ';' :: u.data)))) := by
    simp [strData_append]
  unfold splitSemi5
  rw [hdata]
  rw [pySplitAux_no_semi t.data ht]
  rw [pySplitAux_no_semi l.data hl]
  rw [pySplitAux_no_semi m.data hm]
  rw [pySplitAux_no_semi o.data ho]
  rw [pySplitAux_no_semi msg.data hmsg]
  rw [pySplitAux_zero u.data]
  simp [strMk_data]

/-! ### Message normalization -/

theorem colonSplitAux_head (xs : List Char) :
    ∀ acc, (colonSplitAux acc xs).headD ""
      = String.mk (acc.reverse ++ xs.takeWhile (· ≠ ':')) := by
  induction xs with
  | nil => intro acc; simp [colonSplitAux]
  | cons c cs ih =>
    intro acc
    by_cases hc : c = ':'
    · subst hc
      simp [colonSplitAux, List.takeWhile]
    · have hstep : colonSplitAux acc (c :: cs) = colonSplitAux (c :: acc) cs := by
        simp [colonSplitAux, hc]
      rw [hstep, ih]
      simp [List.takeWhile, hc]

/-- `message.split(':')[0]` is the longest colon-free front of the message. -/
theorem splitColon_head (s : String) :
    (splitColon s).headD "" = String.mk (s.data.takeWhile (· ≠ ':')) := by
  unfold splitColon
  rw [colonSplitAux_head]
  simp

/-! ### Level lookup -/

theorem listIndexOf_lt_length (t : String) :
    ∀ L n, listIndexOf t L = some n → n < L.length := by
  intro L
  induction L with
  | nil => intro n h; simp [listIndexOf] at h
  | cons x xs ih =>
    intro n h
    by_cases hx : x = t
    · simp [listIndexOf, hx] at h
      simp only [List.length_cons]
      omega
    · simp only [listIndexOf, if_neg hx, Option.map_eq_some'] at h
      obtain ⟨a, ha, hn⟩ := h
      have := ih a ha
      simp only [List.length_cons]
      omega

theorem levelIndex_le_five (s : String) (n : Nat) (h : levelIndex s = some n) : n ≤ 5 := by
  have hlen := listIndexOf_lt_length (pyUpper s) LOG_LEVELS n h
  have h6 : LOG_LEVELS.length = 6 := rfl
  rw [h6] at hlen
  omega

/-! ### Shape of `parse_log_line` results -/

/-- Every parse is either exactly the sentinel, or a full success in which
the line split into six parts, the timestamp and the level both resolved,
and the message is the normalized fifth field. -/
theorem parse_shape (s : String) :
    parse_log_line s = invalidEntry
      ∨ ∃ t l m o msg u ts lv, splitSemi5 s = [t, l, m, o, msg, u]
          ∧ strptimeTs t = some ts ∧ levelIndex l = some lv
          ∧ parse_log_line s = ⟨ts, (lv : Int), normalizeMessage msg⟩ := by
  unfold parse_log_line
  split
  · rename_i t l m o msg u heq
    cases hts : strptimeTs t with
    | none => left; simp [hts]
    | some ts =>
      cases hlv : levelIndex l with
      | none => left; simp [hts, hlv]
      | some lv =>
        right
        refine ⟨t, l, m, o, msg, u, ts, lv, heq, hts, hlv, ?_⟩
        simp [hts, hlv]
  · left; rfl

theorem isEmpty_map_pyStrip (l : List String) :
    (l.map pyStrip).isEmpty = l.isEmpty := by
  cases l <;> rfl

/-- The single-pass accumulator loop of `read_log_files` computes, file by
file, exactly the two-phase pipeline: group the lines, merge each group
(strip each line, join with single spaces, strip the result), parse each
merged text. -/
theorem processGo_eq_specGroups (lines : List String) :
    ∀ entry acc, (∀ l ∈ lines, exceptOk (boundaryCheck l) = true) →
      processGo lines (entry.map pyStrip) acc
        = .ok (acc ++ (specGroupsAux entry lines).map (fun g => parse_log_line (specMerge g))) := by
  induction lines with
  | nil =>
    intro entry acc _
    simp only [processGo, specGroupsAux, isEmpty_map_pyStrip]
    cases he : entry.isEmpty
    · simp [he, mkLogEntry, specMerge, specMergeClaim]
    · simp [he]
  | cons line rest ih =>
    intro entry acc hok
    have hline : exceptOk (boundaryCheck line) = true := hok line (by simp)
    have hrest : ∀ l ∈ rest, exceptOk (boundaryCheck l) = true :=
      fun l hlm => hok l (by simp [hlm])
    cases hb : boundaryCheck line with
    | error e => simp [exceptOk, hb] at hline
    | ok b =>
      have hbB : isBoundaryB line = b := by simp [isBoundaryB, hb]
      simp only [processGo, hb, specGroupsAux, hbB, isEmpty_map_pyStrip]
      cases hcond : b && !entry.isEmpty with
      | false =>
        rw [if_neg Bool.false_ne_true, if_neg Bool.false_ne_true]
        have hmap : entry.map pyStrip ++ [pyStrip line] = (entry ++ [line]).map pyStrip := by
          simp
        rw [hmap, ih (entry ++ [line]) acc hrest]
      | true =>
        rw [if_pos rfl, if_pos rfl]
        have hmap : [pyStrip line] = [line].map pyStrip := by simp
        rw [hmap, ih [line] (acc ++ [mkLogEntry (entry.map pyStrip)]) hrest]
        simp [mkLogEntry, specMerge, specMergeClaim]

/-- `processFile` as the grouped pipeline. -/
theorem processFile_eq_specGroups (lines : List String)
    (hok : ∀ l ∈ lines, exceptOk (boundaryCheck l) = true) :
    processFile lines
      = .ok ((specGroups lines).map (fun g => parse_log_line (specMerge g))) := by
  unfold processFile specGroups
  have := processGo_eq_specGroups lines [] [] hok
  simpa using this

/-! ### Boundary test facts -/

theorem boundaryCheck_of_strip_empty (line : String) (h : pyStrip line = "") :
    boundaryCheck line = .ok false := by
  unfold boundaryCheck
  rw [if_pos ((data_eq_nil_iff (pyStrip line)).mpr h)]

theorem boundaryCheck_defined_of_len (line : String) (h : 6 ≤ line.data.length) :
    exceptOk (boundaryCheck line) = true := by
  by_cases hs : (pyStrip line).data = []
  · simp [boundaryCheck, hs, exceptOk]
  · cases h2 : line.data[2]? with
    | none =>
      have := List.getElem?_eq_none_iff.mp h2
      omega
    | some c2 =>
      by_cases hc2 : c2 = '-'
      · cases h5 : line.data[5]? with
        | none =>
          have := List.getElem?_eq_none_iff.mp h5
          omega
        | some c5 => simp [boundaryCheck, hs, h2, hc2, h5, exceptOk]
      · simp [boundaryCheck, hs, h2, hc2, exceptOk]

theorem boundaryCheck_error_short (line : String) (hne : (pyStrip line).data ≠ [])
    (hlen : line.data.length < 3) : boundaryCheck line = .error "IndexError" := by
  have h2 : line.data[2]? = none := List.getElem?_eq_none_iff.mpr (by omega)
  simp [boundaryCheck, hne, h2]

theorem boundaryCheck_cont (line : String) (hne : (pyStrip line).data ≠ [])
    (c2 : Char) (h2 : line.data[2]? = some c2) (hc2 : c2 ≠ '-') :
    boundaryCheck line = .ok false := by
  simp [boundaryCheck, hne, h2, hc2]

theorem boundaryCheck_error_mid (line : String) (hne : (pyStrip line).data ≠ [])
    (h2 : line.data[2]? = some '-') (hlen : line.data.length < 6) :
    boundaryCheck line = .error "IndexError" := by
  have h5 : line.data[5]? = none := List.getElem?_eq_none_iff.mpr (by omega)
  simp [boundaryCheck, hne, h2, h5]

/-! ### Whitespace-only files -/

theorem pyStrip_all_space (s : String) (h : ∀ c ∈ s.data, isPySpace c = true) :
    pyStrip s = "" := by
  unfold pyStrip
  have hdrop : s.data.dropWhile isPySpace = [] := List.dropWhile_eq_nil_iff.mpr h
  rw [hdrop]
  rfl

theorem joinSpace_all_empty (g : List String) (h : ∀ x ∈ g, x = "") :
    ∀ c ∈ (joinSpace g).data, isPySpace c = true := by
  induction g with
  | nil => intro c hc; simp [joinSpace] at hc
  | cons s rest ih =>
    cases rest with
    | nil =>
      intro c hc
      have hs : s = "" := h s (by simp)
      rw [show joinSpace [s] = s from rfl, hs] at hc
      simp at hc
    | cons s' rest' =>
      intro c hc
      have hs : s = "" := h s (by simp)
      have hrest : ∀ x ∈ s' :: rest', x = "" := fun x hx => h x (by simp [hx])
      rw [show joinSpace (s :: s' :: rest') = s ++ " " ++ joinSpace (s' :: rest') from rfl]
        at hc
      rw [strData_append, strData_append, hs] at hc
      simp only [List.mem_append] at hc
      rcases hc with (hc | hc) | hc
      · simp at hc
      · simp at hc
        rw [hc]
        rfl
      · exact ih hrest c hc

theorem specGroupsAux_no_boundary (lines : List String)
    (hnb : ∀ l ∈ lines, isBoundaryB l = false) :
    ∀ entry, entry ≠ [] → specGroupsAux entry lines = [entry ++ lines] := by
  induction lines with
  | nil =>
    intro entry hne
    simp [specGroupsAux, hne]
  | cons l rest ih =>
    intro entry hne
    have hl : isBoundaryB l = false := hnb l (by simp)
    have hrest : ∀ x ∈ rest, isBoundaryB x = false := fun x hx => hnb x (by simp [hx])
    rw [show specGroupsAux entry (l :: rest)
        = if isBoundaryB l && !entry.isEmpty then entry :: specGroupsAux [l] rest
          else specGroupsAux (entry ++ [l]) rest from rfl]
    rw [hl]
    simp only [Bool.false_and, Bool.false_eq_true, if_false]
    rw [ih hrest (entry ++ [l]) (by simp)]
    simp

/-! ### Inversion of the strptime match: what a successful parse can consume -/

theorem parseLit_inv (ch : Char) (l r : List Char) (h : parseLit ch l = some r) :
    l = ch :: r := by
  cases l with
  | nil => simp [parseLit] at h
  | cons c cs =>
    simp only [parseLit] at h
    split_ifs at h with hc
    cases h
    rw [hc]

theorem parseDay_inv (l : List Char) (v : Nat) (r : List Char)
    (h : parseDay l = some (v, r)) : ∃ tok, l = tok ++ r ∧ dayTokenShape tok v := by
  cases l with
  | nil => simp [parseDay] at h
  | cons c1 tail =>
    cases tail with
    | nil =>
      simp only [parseDay] at h
      split_ifs at h with h1
      simp only [Option.some.injEq, Prod.mk.injEq] at h
      obtain ⟨hv, hr⟩ := h
      subst hv
      subst hr
      simp only [Bool.and_eq_true, decide_eq_true_eq] at h1
      exact ⟨[c1], by simp, Or.inr (Or.inl ⟨c1, rfl, h1.1, h1.2, rfl⟩)⟩
    | cons c2 rest =>
      simp only [parseDay] at h
      split_ifs at h with h1 h2 h3
      · simp only [Option.some.injEq, Prod.mk.injEq] at h
        obtain ⟨hv, hr⟩ := h
        subst hv
        subst hr
        simp only [Bool.and_eq_true, decide_eq_true_eq] at h1
        exact ⟨[c1, c2], by simp,
          Or.inl ⟨c1, c2, rfl, h1.1.1.1, h1.1.1.2, rfl, h1.1.2, h1.2⟩⟩
      · simp only [Option.some.injEq, Prod.mk.injEq] at h
        obtain ⟨hv, hr⟩ := h
        subst hv
        subst hr
        simp only [Bool.and_eq_true, decide_eq_true_eq] at h2
        exact ⟨[c1], by simp, Or.inr (Or.inl ⟨c1, rfl, h2.1, h2.2, rfl⟩)⟩
      · simp only [Option.some.injEq, Prod.mk.injEq] at h
        obtain ⟨hv, hr⟩ := h
        subst hv
        subst hr
        simp only [Bool.and_eq_true, decide_eq_true_eq] at h3
        obtain ⟨⟨hc1, hc2⟩, hlo⟩ := h3
        subst hc1
        exact ⟨[' ', c2], by simp, Or.inr (Or.inr ⟨c2, rfl, hc2, hlo, rfl⟩)⟩

theorem parseNum2or1_inv (lo2 hi2 lo1 : Nat) (l : List Char) (v : Nat) (r : List Char)
    (h : parseNum2or1 lo2 hi2 lo1 l = some (v, r)) :
    ∃ tok, l = tok ++ r ∧ numTokenShape lo2 hi2 lo1 tok v := by
  cases l with
  | nil => simp [parseNum2or1] at h
  | cons c1 tail =>
    cases tail with
    | nil =>
      simp only [parseNum2or1] at h
      split_ifs at h with h1
      simp only [Option.some.injEq, Prod.mk.injEq] at h
      obtain ⟨hv, hr⟩ := h
      subst hv
      subst hr
      simp only [Bool.and_eq_true, decide_eq_true_eq] at h1
      exact ⟨[c1], by simp, Or.inr ⟨c1, rfl, h1.1, h1.2, rfl⟩⟩
    | cons c2 rest =>
      simp only [parseNum2or1] at h
      split_ifs at h with h1 h2
      · simp only [Option.some.injEq, Prod.mk.injEq] at h
        obtain ⟨hv, hr⟩ := h
        subst hv
        subst hr
        simp only [Bool.and_eq_true, decide_eq_true_eq] at h1
        exact ⟨[c1, c2], by simp,
          Or.inl ⟨c1, c2, rfl, h1.1.1.1, h1.1.1.2, rfl, h1.1.2, h1.2⟩⟩
      · simp only [Option.some.injEq, Prod.mk.injEq] at h
        obtain ⟨hv, hr⟩ := h
        subst hv
        subst hr
        simp only [Bool.and_eq_true, decide_eq_true_eq] at h2
        exact ⟨[c1], by simp, Or.inr ⟨c1, rfl, h2.1, h2.2, rfl⟩⟩

theorem parseYear4_inv (l : List Char) (v : Nat) (r : List Char)
    (h : parseYear4 l = some (v, r)) : ∃ tok, l = tok ++ r ∧ yearTokenShape tok v := by
  match l with
  | [] => simp [parseYear4] at h
  | [a] => simp [parseYear4] at h
  | [a, b] => simp [parseYear4] at h
  | [a, b, c] => simp [parseYear4] at h
  | a :: b :: c :: d :: rest =>
    simp only [parseYear4] at h
    split_ifs at h with h1
    simp only [Option.some.injEq, Prod.mk.injEq] at h
    obtain ⟨hv, hr⟩ := h
    subst hv
    subst hr
    simp only [Bool.and_eq_true] at h1
    exact ⟨[a, b, c, d], by simp,
      ⟨a, b, c, d, rfl, h1.1.1.1, h1.1.1.2, h1.1.2, h1.2, rfl⟩⟩

theorem takeWhile_append_drop_self (p : Char → Bool) (l : List Char) :
    l = l.takeWhile p ++ l.drop (l.takeWhile p).length :=
  (List.prefix_iff_eq_append.mp ( List.takeWhile_prefix p)).symm

theorem take_takeWhile_append_drop (p : Char → Bool) (n : Nat) (l : List Char) :
    l = (l.takeWhile p).take n ++ l.drop ((l.takeWhile p).take n).length :=
  (List.prefix_iff_eq_append.mp
    (( List.take_prefix n (l.takeWhile p)).trans ( List.takeWhile_prefix p))).symm

theorem parseWs_inv (l r : List Char) (h : parseWs l = some r) :
    ∃ tok, l = tok ++ r ∧ wsTokenShape tok := by
  unfold parseWs at h
  split_ifs at h with h1
  simp only [Option.some.injEq] at h
  subst h
  refine ⟨l.takeWhile isPySpace, takeWhile_append_drop_self isPySpace l, ?_, ?_⟩
  · intro hnil
    rw [hnil] at h1
    exact h1 rfl
  · intro c hc
    exact List.mem_takeWhile_imp hc

theorem parseFrac_inv (l : List Char) (v : Nat) (r : List Char)
    (h : parseFrac l = some (v, r)) : ∃ tok, l = tok ++ r ∧ fracTokenShape tok v := by
  unfold parseFrac at h
  split_ifs at h with h1
  simp only [Option.some.injEq, Prod.mk.injEq] at h
  obtain ⟨hv, hr⟩ := h
  subst hv
  subst hr
  refine ⟨(l.takeWhile Char.isDigit).take 6, ?_, ?_, ?_, ?_, ?_⟩
  · have := take_takeWhile_append_drop Char.isDigit 6 l
    simpa using this
  · rcases hne : (l.takeWhile Char.isDigit).take 6 with _ | ⟨x, xs⟩
    · rw [hne] at h1
      exact absurd rfl h1
    · simp
  · exact List.length_take_le 6 (l.takeWhile Char.isDigit)
  · intro c hc
    exact List.mem_takeWhile_imp (List.take_subset 6 _ hc)
  · simp

theorem strptimeMatch_inv (l : List Char) (y m d h mi s f : Nat)
    (hm : strptimeMatch l = some (y, m, d, h, mi, s, f)) :
    ∃ ds ms ys ws hs mis ss fs,
      l = ds ++ '-' :: (ms ++ '-' :: (ys ++ (ws ++ (hs ++ ':'
          :: (mis ++ ':' :: (ss ++ '.' :: fs))))))
      ∧ dayTokenShape ds d ∧ numTokenShape 1 12 1 ms m ∧ yearTokenShape ys y
      ∧ wsTokenShape ws ∧ numTokenShape 0 23 0 hs h ∧ numTokenShape 0 59 0 mis mi
      ∧ numTokenShape 0 61 0 ss s ∧ fracTokenShape fs f := by
  unfold strptimeMatch at hm
  split at hm
  · rename_i d1 l1 hday
    split at hm
    · rename_i l2 hlit1
      split at hm
      · rename_i m1 l3 hmon
        split at hm
        · rename_i l4 hlit2
          split at hm
          · rename_i y1 l5 hyear
            split at hm
            · rename_i l6 hwsp
              split at hm
              · rename_i h1 l7 hhour
                split at hm
                · rename_i l8 hlit3
                  split at hm
                  · rename_i mi1 l9 hmin
                    split at hm
                    · rename_i l10 hlit4
                      split at hm
                      · rename_i s1 l11 hsec
                        split at hm
                        · rename_i l12 hlit5
                          split at hm
                          · rename_i f1 l13 hfrac
                            split at hm
                            · rename_i hempty
                              simp only [Option.some.injEq, Prod.mk.injEq] at hm
                              obtain ⟨hy, hm2, hd2, hh2, hmi2, hs2, hf2⟩ := hm
                              subst hy
                              subst hm2
                              subst hd2
                              subst hh2
                              subst hmi2
                              subst hs2
                              subst hf2
                              obtain ⟨ds, hEq0, hds⟩ := parseDay_inv l d1 l1 hday
                              have hEq1 : l1 = '-' :: l2 := parseLit_inv '-' l1 l2 hlit1
                              obtain ⟨mos, hEq2, hmos⟩ :=
                                parseNum2or1_inv 1 12 1 l2 m1 l3 hmon
                              have hEq3 : l3 = '-' :: l4 := parseLit_inv '-' l3 l4 hlit2
                              obtain ⟨ys, hEq4, hys⟩ := parseYear4_inv l4 y1 l5 hyear
                              obtain ⟨wsp, hEq5, hwsp'⟩ := parseWs_inv l5 l6 hwsp
                              obtain ⟨hrs, hEq6, hhrs⟩ :=
                                parseNum2or1_inv 0 23 0 l6 h1 l7 hhour
                              have hEq7 : l7 = ':' :: l8 := parseLit_inv ':' l7 l8 hlit3
                              obtain ⟨mins, hEq8, hmins⟩ :=
                                parseNum2or1_inv 0 59 0 l8 mi1 l9 hmin
                              have hEq9 : l9 = ':' :: l10 := parseLit_inv ':' l9 l10 hlit4
                              obtain ⟨secs, hEq10, hsecs⟩ :=
                                parseNum2or1_inv 0 61 0 l10 s1 l11 hsec
                              have hEq11 : l11 = '.' :: l12 :=
                                parseLit_inv '.' l11 l12 hlit5
                              obtain ⟨fras, hEq12, hfras⟩ := parseFrac_inv l12 f1 l13 hfrac
                              have hEq13 : l13 = [] := by simpa using hempty
                              refine ⟨ds, mos, ys, wsp, hrs, mins, secs, fras, ?_, hds,
                                hmos, hys, hwsp', hhrs, hmins, hsecs, hfras⟩
                              rw [hEq0, hEq1, hEq2, hEq3, hEq4, hEq5, hEq6, hEq7, hEq8,
                                hEq9, hEq10, hEq11, hEq12, hEq13]
                              simp
                            · exact absurd hm (by simp)
                          · exact absurd hm (by simp)
                        · exact absurd hm (by simp)
                      · exact absurd hm (by simp)
                    · exact absurd hm (by simp)
                  · exact absurd hm (by simp)
                · exact absurd hm (by simp)
              · exact absurd hm (by simp)
            · exact absurd hm (by simp)
          · exact absurd hm (by simp)
        · exact absurd hm (by simp)
      · exact absurd hm (by simp)
    · exact absurd hm (by simp)
  · exact absurd hm (by simp)

/-! ### Claim C1 -/

/-- Claim C1, counterexample: a successfully opened `.log` file whose only
physical line is `"x\n"` — a non-empty line shorter than 6 characters — is
not treated as a continuation line; the boundary test `line[2] == '-'`
raises an `IndexError` that propagates out of `read_log_files`. -/
theorem c1_counterexample :
    readLogFiles [("a.log", ["x\n"])] = .error "IndexError" := rfl

/-- Claim C1, amended: the boundary test is defined for every raw line of
length at least 6, and a whitespace-only line is a continuation line; but a
line whose strip is non-empty raises an `IndexError` when the raw line has
fewer than 3 characters, or when its character at index 2 is `'-'` and it
has fewer than 6 characters; a short line whose index-2 character exists and
differs from `'-'` is a continuation line, and a file all of whose raw lines
have length at least 6 is processed without any error. -/
theorem c1_boundary_totality :
    (∀ line : String, pyStrip line = "" → boundaryCheck line = .ok false)
    ∧ (∀ line : String, 6 ≤ line.data.length → exceptOk (boundaryCheck line) = true)
    ∧ (∀ line : String, pyStrip line ≠ "" → line.data.length < 3 →
        boundaryCheck line = .error "IndexError")
    ∧ (∀ (line : String) (c2 : Char), pyStrip line ≠ "" → line.data[2]? = some c2 →
        c2 ≠ '-' → boundaryCheck line = .ok false)
    ∧ (∀ line : String, pyStrip line ≠ "" → line.data[2]? = some '-' →
        line.data.length < 6 → boundaryCheck line = .error "IndexError")
    ∧ (∀ lines : List String, (∀ l ∈ lines, 6 ≤ l.data.length) →
        ∃ es, processFile lines = .ok es) := by
  refine ⟨boundaryCheck_of_strip_empty, boundaryCheck_defined_of_len, ?_, ?_, ?_, ?_⟩
  · intro line h1 h2
    exact boundaryCheck_error_short line (fun hd => h1 ((data_eq_nil_iff _).mp hd)) h2
  · intro line c2 h1 h2 h3
    exact boundaryCheck_cont line (fun hd => h1 ((data_eq_nil_iff _).mp hd)) c2 h2 h3
  · intro line h1 h2 h3
    exact boundaryCheck_error_mid line (fun hd => h1 ((data_eq_nil_iff _).mp hd)) h2 h3
  · intro lines hlen
    exact ⟨_, processFile_eq_specGroups lines
      (fun l hl => boundaryCheck_defined_of_len l (hlen l hl))⟩

/-- Witness for the amended C1 theorem at the concrete line `"ab\n"`. -/
theorem c1_boundary_totality_witness : boundaryCheck "ab\n" = .ok false :=
  c1_boundary_totality.2.2.2.1 "ab\n" '\n' (by decide) (by decide) (by decide)

/-! ### Claim C2 -/

/-- Claim C2, counterexample: the timestamp `"1-2-2023 0:0:0.1"` deviates
from the exact pattern `DD-MM-YYYY HH:MM:SS.ffffff` (single-digit day,
month, hour, minute, second, one fraction digit), yet `strptime` accepts it
and the whole entry parses with level 0 instead of the failure sentinel. -/
theorem c2_counterexample :
    strptimeTs "1-2-2023 0:0:0.1" = some ⟨2023, 2, 1, 0, 0, 0, 100000⟩
      ∧ parse_log_line "1-2-2023 0:0:0.1;ERROR;M;O;hi;x" ≠ invalidEntry := by
  exact ⟨by decide, by decide⟩

/-- Claim C2, amended: the exact `DD-MM-YYYY HH:MM:SS.ffffff` shape with
calendar-valid values does parse, but it is not necessary — `strptime` also
accepts one- or two-digit day, month, hour, minute and second, a
space-then-digit day, one to six fraction digits, and any non-empty run of
whitespace where the format has its space. A timestamp field (of the log
format's ASCII characters) parses successfully only when it decomposes into
day, `'-'`, month, `'-'`, four-digit year, whitespace run, hour, `':'`,
minute, `':'`, second, `'.'`, fraction, each token of the regex shape; and
every successful parse yields calendar-valid, in-range components (day
within the month, month 1–12, year 1–9999, hour ≤ 23, minute ≤ 59,
second ≤ 59, microseconds ≤ 999999). Anything else — here, for instance, a
date with no time, or two leading spaces — is a parse failure. -/
theorem c2_strptime_lenient :
    (∀ (s : String) (t : Timestamp), strptimeTs s = some t →
        1 ≤ t.year ∧ t.year ≤ 9999 ∧ 1 ≤ t.month ∧ t.month ≤ 12
          ∧ 1 ≤ t.day ∧ t.day ≤ daysInMonth t.year t.month
          ∧ t.hour ≤ 23 ∧ t.minute ≤ 59 ∧ t.second ≤ 59 ∧ t.microsecond ≤ 999999)
    ∧ (∀ (s : String) (t : Timestamp), strptimeTs s = some t →
        ∃ ds ms ys ws hs mis ss fs,
          s.data = ds ++ '-' :: (ms ++ '-' :: (ys ++ (ws ++ (hs ++ ':'
              :: (mis ++ ':' :: (ss ++ '.' :: fs))))))
          ∧ dayTokenShape ds t.day ∧ numTokenShape 1 12 1 ms t.month
          ∧ yearTokenShape ys t.year ∧ wsTokenShape ws
          ∧ numTokenShape 0 23 0 hs t.hour ∧ numTokenShape 0 59 0 mis t.minute
          ∧ numTokenShape 0 61 0 ss t.second ∧ fracTokenShape fs t.microsecond)
    ∧ strptimeTs "01-02-2023 10:00:00.000000" = some ⟨2023, 2, 1, 10, 0, 0, 0⟩
    ∧ strptimeTs " 1-2-2023\t10:00:00.5" = some ⟨2023, 2, 1, 10, 0, 0, 500000⟩
    ∧ strptimeTs "01-02-2023" = none
    ∧ strptimeTs "  1-2-2023 10:00:00.000000" = none := by
  have hmatch : ∀ (s : String) (t : Timestamp), strptimeTs s = some t →
      strptimeMatch s.data
        = some (t.year, t.month, t.day, t.hour, t.minute, t.second, t.microsecond)
        ∧ (1 ≤ t.year ∧ t.year ≤ 9999 ∧ 1 ≤ t.month ∧ t.month ≤ 12
          ∧ 1 ≤ t.day ∧ t.day ≤ daysInMonth t.year t.month
          ∧ t.hour ≤ 23 ∧ t.minute ≤ 59 ∧ t.second ≤ 59 ∧ t.microsecond ≤ 999999) := by
    intro s t h
    unfold strptimeTs at h
    split at h
    · exact absurd h (by simp)
    · rename_i y m d hh mi sec f heq
      split at h
      · rename_i hcond
        cases h
        exact ⟨heq, hcond⟩
      · exact absurd h (by simp)
  refine ⟨fun s t h => (hmatch s t h).2, ?_, by decide, by decide, by decide, by decide⟩
  intro s t h
  exact strptimeMatch_inv s.data t.year t.month t.day t.hour t.minute t.second
    t.microsecond (hmatch s t h).1

/-- Witness for the amended C2 theorem at a concrete lenient parse. -/
theorem c2_strptime_lenient_witness :
    1 ≤ (⟨2023, 2, 1, 10, 0, 0, 500000⟩ : Timestamp).year :=
  (c2_strptime_lenient.1 " 1-2-2023\t10:00:00.5" ⟨2023, 2, 1, 10, 0, 0, 500000⟩
    (by decide)).1

/-! ### Claim C3 -/

/-- Claim C3, counterexample: the entry with timestamp 2023-02-01 10:00:00,
level 0 and message `"oops"` passes the severity filter, yet the rendered
console line is not the claimed semicolon-separated form with no further
characters — the code's f-string puts a space after each semicolon. -/
theorem c3_counterexample :
    (0 : Int) ≤ (⟨⟨2023, 2, 1, 10, 0, 0, 0⟩, 0, "oops"⟩ : RuntimeLogLine).level
      ∧ (⟨⟨2023, 2, 1, 10, 0, 0, 0⟩, 0, "oops"⟩ : RuntimeLogLine).level ≤ 1
      ∧ renderLine ⟨⟨2023, 2, 1, 10, 0, 0, 0⟩, 0, "oops"⟩
          ≠ specRenderClaim ⟨⟨2023, 2, 1, 10, 0, 0, 0⟩, 0, "oops"⟩ := by
  exact ⟨by decide, by decide, by decide⟩

/-- Claim C3, amended: for every entry that passes the severity filter, the
rendered console line is the timestamp formatted `DD-MM-YYYY HH:MM:SS`, a
semicolon and one space, the level token left-justified to 10 characters, a
semicolon and one space, and the message. -/
theorem c3_render_amended (e : RuntimeLogLine) (_h0 : 0 ≤ e.level) (_h1 : e.level ≤ 1) :
    renderLine e = specRenderAmended e := rfl

/-- Witness for the amended C3 theorem at a concrete filtered entry. -/
theorem c3_render_amended_witness :
    renderLine ⟨⟨2023, 2, 1, 10, 0, 0, 0⟩, 0, "oops"⟩
      = specRenderAmended ⟨⟨2023, 2, 1, 10, 0, 0, 0⟩, 0, "oops"⟩ :=
  c3_render_amended ⟨⟨2023, 2, 1, 10, 0, 0, 0⟩, 0, "oops"⟩ (by decide) (by decide)

/-! ### Claim C4 -/

/-- Claim C4: `parse_log_line` is total by construction, and whenever the
split does not yield exactly 6 parts, or the timestamp field is unparseable,
or the level token is not in the vocabulary, it returns exactly the sentinel
triple; otherwise every field parsed — there is no partial success. -/
theorem c4_sentinel_totality (s : String) :
    (parse_log_line s = invalidEntry
      ∨ ∃ t l m o msg u ts lv, splitSemi5 s = [t, l, m, o, msg, u]
          ∧ strptimeTs t = some ts ∧ levelIndex l = some lv
          ∧ parse_log_line s = ⟨ts, (lv : Int), normalizeMessage msg⟩)
    ∧ ((splitSemi5 s).length ≠ 6 → parse_log_line s = invalidEntry)
    ∧ (∀ t l m o msg u, splitSemi5 s = [t, l, m, o, msg, u] →
        strptimeTs t = none → parse_log_line s = invalidEntry)
    ∧ (∀ t l m o msg u, splitSemi5 s = [t, l, m, o, msg, u] →
        levelIndex l = none → parse_log_line s = invalidEntry) := by
  refine ⟨parse_shape s, ?_, ?_, ?_⟩
  · intro hlen
    unfold parse_log_line
    split
    · rename_i t l m o msg u heq
      rw [heq] at hlen
      simp at hlen
    · rfl
  · intro t l m o msg u hsp hts
    unfold parse_log_line
    rw [hsp]
    cases hlv : levelIndex l <;> simp [hts, hlv]
  · intro t l m o msg u hsp hlv
    unfold parse_log_line
    rw [hsp]
    cases hts : strptimeTs t <;> simp [hts, hlv]

/-- Witness for C4 at the empty string, whose split has one part. -/
theorem c4_sentinel_totality_witness : parse_log_line "" = invalidEntry :=
  (c4_sentinel_totality "").2.1 (by decide)

/-! ### Claim C5 -/

/-- Claim C5: splitting cuts at the first five semicolons only (the sixth
part keeps any further semicolons verbatim), and parsing a well-formed entry
recovers the timestamp, the level index of the level token, and the message
verbatim when the message does not begin with a protected error template. -/
theorem c5_round_trip (t l m o msg u : String) (ts : Timestamp) (lv : Nat)
    (ht : ∀ c ∈ t.data, c ≠ ';') (hl : ∀ c ∈ l.data, c ≠ ';')
    (hm : ∀ c ∈ m.data, c ≠ ';') (ho : ∀ c ∈ o.data, c ≠ ';')
    (hmsg : ∀ c ∈ msg.data, c ≠ ';')
    (hts : strptimeTs t = some ts) (hlv : levelIndex l = some lv)
    (hshape : hasErrorShape msg = false) :
    splitSemi5 (t ++ ";" ++ l ++ ";" ++ m ++ ";" ++ o ++ ";" ++ msg ++ ";" ++ u)
        = [t, l, m, o, msg, u]
      ∧ parse_log_line (t ++ ";" ++ l ++ ";" ++ m ++ ";" ++ o ++ ";" ++ msg ++ ";" ++ u)
        = ⟨ts, (lv : Int), msg⟩ := by
  have hsp := splitSemi5_parts t l m o msg u ht hl hm ho hmsg
  refine ⟨hsp, ?_⟩
  unfold parse_log_line
  rw [hsp]
  simp [hts, hlv, normalizeMessage, hshape]

/-- Witness for C5: a concrete entry whose sixth field itself contains a
semicolon, recovered with message intact. -/
theorem c5_round_trip_witness :
    parse_log_line "01-02-2023 10:00:00.000000;ERROR;Mod;Obj;hello;tail;extra"
      = ⟨⟨2023, 2, 1, 10, 0, 0, 0⟩, 0, "hello"⟩ :=
  (c5_round_trip "01-02-2023 10:00:00.000000" "ERROR" "Mod" "Obj" "hello" "tail;extra"
    ⟨2023, 2, 1, 10, 0, 0, 0⟩ 0 (by decide) (by decide) (by decide) (by decide)
    (by decide) (by decide) (by decide) (by decide)).2

/-! ### Claim C7 -/

/-- Claim C7: a message beginning with one of the protected error templates
is truncated to the portion strictly before its first colon (the whole
message when it has no colon), both at the normalization step and through a
successful parse; other messages pass through unchanged; in particular
`"Error invoking Foo: bar: baz"` becomes `"Error invoking Foo"`. -/
theorem c7_truncation :
    (∀ msg : String, hasErrorShape msg = true →
        normalizeMessage msg = String.mk (msg.data.takeWhile (· ≠ ':')))
    ∧ (∀ msg : String, hasErrorShape msg = false → normalizeMessage msg = msg)
    ∧ normalizeMessage "Error invoking Foo: bar: baz" = "Error invoking Foo"
    ∧ (∀ s t l m o msg u ts lv, splitSemi5 s = [t, l, m, o, msg, u] →
        strptimeTs t = some ts → levelIndex l = some lv → hasErrorShape msg = true →
        (parse_log_line s).message = String.mk (msg.data.takeWhile (· ≠ ':'))) := by
  have hnorm : ∀ msg : String, hasErrorShape msg = true →
      normalizeMessage msg = String.mk (msg.data.takeWhile (· ≠ ':')) := by
    intro msg h
    unfold normalizeMessage
    rw [if_pos h, splitColon_head]
  refine ⟨hnorm, ?_, by decide, ?_⟩
  · intro msg h
    simp [normalizeMessage, h]
  · intro s t l m o msg u ts lv hsp hts hlv hshape
    unfold parse_log_line
    rw [hsp]
    simp [hts, hlv]
    simpa using hnorm msg hshape

/-- Witness for C7 at a concrete protected message. -/
theorem c7_truncation_witness :
    normalizeMessage "Error running job: timeout" = "Error running job" :=
  (c7_truncation.1 "Error running job: timeout" (by decide)).trans (by decide)

/-! ### Claim C6 -/

/-- Claim C6, counterexample: for the file whose lines are two blank lines
followed by a parseable non-boundary entry line, the raw text the code
passes to the parser is the stripped join (the entry parses with level 0),
while the claim's merge formula — stripped lines joined with a single
space, with no outer strip — yields a text with two leading spaces, which
`strptime` rejects (the `%d` space alternative admits exactly one space),
so the claimed raw text would parse to the sentinel instead. -/
theorem c6_counterexample :
    processFile ["\n", "\n", "1-2-2023 10:00:00.000000;ERROR;M;O;hi;x\n"]
        = .ok [parse_log_line
            (specMerge ["\n", "\n", "1-2-2023 10:00:00.000000;ERROR;M;O;hi;x\n"])]
      ∧ specMergeClaim ["\n", "\n", "1-2-2023 10:00:00.000000;ERROR;M;O;hi;x\n"]
          ≠ specMerge ["\n", "\n", "1-2-2023 10:00:00.000000;ERROR;M;O;hi;x\n"]
      ∧ (parse_log_line
            (specMergeClaim
              ["\n", "\n", "1-2-2023 10:00:00.000000;ERROR;M;O;hi;x\n"])).level
          = -1
      ∧ (parse_log_line
            (specMerge ["\n", "\n", "1-2-2023 10:00:00.000000;ERROR;M;O;hi;x\n"])).level
          = 0 := by
  exact ⟨by rfl, by decide, by rfl, by rfl⟩

/-- Claim C6, amended: the raw text passed to the parser for each logical
entry is the group's physical lines each stripped, joined with a single
space, and then stripped as a whole; a boundary line seen after accumulated
lines flushes the group first, remaining lines are flushed at end of file
(captured by `specGroups`), and the two-line example file merges into the
claimed single raw text. -/
theorem c6_merge_flush :
    (∀ lines : List String, (∀ l ∈ lines, exceptOk (boundaryCheck l) = true) →
        processFile lines
          = .ok ((specGroups lines).map (fun g => parse_log_line (specMerge g))))
    ∧ specMerge ["01-02-2023 10:00:00.000000;ERROR;M;O;oops", "more detail"]
        = "01-02-2023 10:00:00.000000;ERROR;M;O;oops more detail"
    ∧ specGroups ["01-02-2023 10:00:00.000000;ERROR;M;O;oops\n", "more detail\n"]
        = [["01-02-2023 10:00:00.000000;ERROR;M;O;oops\n", "more detail\n"]] := by
  exact ⟨processFile_eq_specGroups, by decide, by decide⟩

/-- Witness for the amended C6 theorem: the example file is processed into
exactly the parse of the claimed merged raw text. -/
theorem c6_merge_flush_witness :
    processFile ["01-02-2023 10:00:00.000000;ERROR;M;O;oops\n", "more detail\n"]
      = .ok [parse_log_line "01-02-2023 10:00:00.000000;ERROR;M;O;oops more detail"] :=
  (c6_merge_flush.1 ["01-02-2023 10:00:00.000000;ERROR;M;O;oops\n", "more detail\n"]
    (by decide)).trans (by rfl)

/-! ### Claim C8 -/

/-- Claim C8: level resolution is case-insensitive over the fixed vocabulary
indexed 0–5 — any token whose uppercasing equals the vocabulary entry at
index `i` resolves to `i`; in particular `"error"`, `"Error"` and `"ERROR"`
all resolve to 0. -/
theorem c8_level_case_insensitive :
    (∀ (s : String) (i : Nat) (h : i < LOG_LEVELS.length),
        pyUpper s = LOG_LEVELS.get ⟨i, h⟩ → levelIndex s = some i)
    ∧ levelIndex "error" = some 0
    ∧ levelIndex "Error" = some 0
    ∧ levelIndex "ERROR" = some 0 := by
  refine ⟨?_, by decide, by decide, by decide⟩
  intro s i h heq
  have h6 : i < 6 := h
  unfold levelIndex
  rw [heq]
  interval_cases i <;> exact of_decide_eq_true rfl

/-- Witness for C8 at the concrete token `"warning"`. -/
theorem c8_level_case_insensitive_witness : levelIndex "warning" = some 1 :=
  c8_level_case_insensitive.1 "warning" 1 (by decide) (by decide)

/-! ### Claim C9 -/

/-- Claim C9: the parsed level is `-1` exactly when the entry is the failure
sentinel, and otherwise it is a valid index 0–5 into the vocabulary. -/
theorem c9_level_invariant (s : String) :
    ((parse_log_line s).level = -1 ↔ parse_log_line s = invalidEntry)
    ∧ ((parse_log_line s).level = -1
        ∨ (0 ≤ (parse_log_line s).level ∧ (parse_log_line s).level ≤ 5)) := by
  rcases parse_shape s with h | ⟨t, l, m, o, msg, u, ts, lv, hsp, hts, hlv, h⟩
  · rw [h]
    exact ⟨⟨fun _ => rfl, fun _ => rfl⟩, Or.inl rfl⟩
  · rw [h]
    have hle := levelIndex_le_five l lv hlv
    constructor
    · constructor
      · intro hlevel
        exfalso
        have : (lv : Int) = -1 := hlevel
        omega
      · intro heq
        exfalso
        have : (lv : Int) = -1 := congrArg RuntimeLogLine.level heq
        omega
    · right
      constructor
      · exact Int.natCast_nonneg lv
      · have : (lv : Int) ≤ 5 := by omega
        exact this

/-- Witness for C9 at the empty string (a sentinel parse). -/
theorem c9_level_invariant_witness : (parse_log_line "").level = -1 :=
  (c9_level_invariant "").1.mpr (by rfl)

/-! ### Claim C10 -/

/-- Claim C10: a file with no lines contributes no entries, while a
non-empty file whose lines are all whitespace-only still accumulates one
all-empty group, flushed at end of file into exactly one sentinel entry with
level `-1` and message `"Invalid log line format"`. -/
theorem c10_empty_vs_whitespace :
    processFile ([] : List String) = .ok []
    ∧ (∀ lines : List String, lines ≠ [] → (∀ l ∈ lines, pyStrip l = "") →
        processFile lines = .ok [invalidEntry])
    ∧ invalidEntry.level = -1
    ∧ invalidEntry.message = "Invalid log line format" := by
  refine ⟨rfl, ?_, rfl, rfl⟩
  intro lines hne hws
  have hok : ∀ l ∈ lines, exceptOk (boundaryCheck l) = true := by
    intro l hl
    rw [boundaryCheck_of_strip_empty l (hws l hl)]
    rfl
  rw [processFile_eq_specGroups lines hok]
  have hnb : ∀ l ∈ lines, isBoundaryB l = false := by
    intro l hl
    simp [isBoundaryB, boundaryCheck_of_strip_empty l (hws l hl)]
  have hmerge : specMerge lines = "" := by
    apply pyStrip_all_space
    apply joinSpace_all_empty
    intro x hx
    rw [List.mem_map] at hx
    obtain ⟨y, hy, hxy⟩ := hx
    rw [← hxy]
    exact hws y hy
  cases lines with
  | nil => exact absurd rfl hne
  | cons l0 rest =>
    have hgroups : specGroups (l0 :: rest) = [l0 :: rest] := by
      unfold specGroups
      rw [show specGroupsAux [] (l0 :: rest)
          = if isBoundaryB l0 && !(List.isEmpty ([] : List String)) then
              ([] : List String) :: specGroupsAux [l0] rest
            else specGroupsAux ([] ++ [l0]) rest from rfl]
      simp only [List.isEmpty_nil, Bool.not_true, Bool.and_false, Bool.false_eq_true,
        if_false]
      rw [show ([] : List String) ++ [l0] = [l0] from rfl]
      rw [specGroupsAux_no_boundary rest (fun x hx => hnb x (by simp [hx])) [l0]
        (by simp)]
      rfl
    rw [hgroups]
    show Except.ok [parse_log_line (specMerge (l0 :: rest))] = Except.ok [invalidEntry]
    rw [hmerge]
    rfl

/-- Witness for C10 at a concrete two-line whitespace-only file. -/
theorem c10_empty_vs_whitespace_witness :
    processFile [" \n", "\t\n"] = .ok [invalidEntry] :=
  c10_empty_vs_whitespace.2.1 [" \n", "\t\n"] (by decide) (by decide)
